import Mathlib

/-!
Verification of the `Message` core of `remoulade` (`src/remoulade/message.py`)
against its natural-language specification.

The embedding is shallow: Python dicts become insertion-ordered association
lists, tuples become lists, the dynamic values that flow through the decoder
become a small inductive `PyVal`, exceptions become `Except`, and the
delegated broker calls of `set_progress` become an explicit effect trace.
External collaborators that live outside the given source file (the wire
`Encoder`, the `pipeline` combinator, the `InvalidProgress` error class, the
identity generator) are modelled at their specified boundary.
-/

set_option autoImplicit false
set_option maxHeartbeats 1000000

/-- Dynamic (JSON-like) values that the runtime passes as keyword arguments to
the `Message` constructor when a payload is decoded.  `vtuple` and `vlist` are
both finite ordered iterables, so both are accepted by the `tuple` converter
of the `args` field. -/
inductive PyVal (α : Type) : Type where
  | vstr : String → PyVal α
  | vint : Int → PyVal α
  | vtuple : List α → PyVal α
  | vlist : List α → PyVal α
  | vdict : List (String × α) → PyVal α
deriving DecidableEq

/-- A Python `dict` with string keys: an insertion-ordered association list.
A real Python dict never holds a duplicate key; theorems that rely on this
carry it as a `Nodup` hypothesis on the key list. -/
abbrev Dict (α : Type) : Type := List (String × α)

/-- `d[k]` lookup; the first binding wins, which on unique-key dicts is the
binding. -/
def dlookup {α : Type} : Dict α → String → Option α
  | [], _ => none
  | kv :: rest, k => if kv.1 = k then some kv.2 else dlookup rest k

/-- `d[k] = v` on a Python dict: replace the value at an existing key in place
(keeping its insertion position), or append a fresh binding at the end. -/
def dictSet {α : Type} : Dict α → String → α → Dict α
  | [], k, v => [(k, v)]
  | kv :: rest, k, v => if kv.1 = k then (k, v) :: rest else kv :: dictSet rest k v

/-- `base.update(upd)`: fold `dictSet` over the bindings of `upd`, as Python
iterates the update mapping in insertion order. -/
def dictUpdate {α : Type} (base upd : Dict α) : Dict α :=
  upd.foldl (fun acc kv => dictSet acc kv.1 kv.2) base

/-- A finite ordered iterable supplied as the `args` argument: Python callers
may pass a list, a tuple, or any other ordered iterable (modelled by
`pygenerator`); each presents its elements in a fixed order. -/
inductive PyIterable (α : Type) : Type where
  | pylist : List α → PyIterable α
  | pytuple : List α → PyIterable α
  | pygenerator : List α → PyIterable α
deriving DecidableEq

/-- The ordered elements an iterable yields. -/
def PyIterable.elements {α : Type} : PyIterable α → List α
  | .pylist xs => xs
  | .pytuple xs => xs
  | .pygenerator xs => xs

/-- The `tuple` builtin applied to a finite ordered iterable, used as the
attrs converter of the `args` field (`args: tuple = attr.field(converter=tuple)`):
it materialises the elements, in order, into a fresh immutable sequence. -/
def tupleConverter {α : Type} : PyIterable α → List α
  | .pylist xs => xs
  | .pytuple xs => xs
  | .pygenerator xs => xs

/-- The `Message` record of `message.py`: an immutable attrs class with seven
fields.  `α` is the type of argument/option values. -/
structure Message (α : Type) : Type where
  queue_name : String
  actor_name : String
  args : List α
  kwargs : Dict α
  options : Dict α
  message_id : String
  message_timestamp : Int
deriving DecidableEq

/-- Construction of a `Message`.  `args` passes through the `tuple` converter;
`message_id` and `message_timestamp` fall back to their attrs factories
(`generate_unique_id` and the wall clock, both external; their draws are the
`freshId` / `freshTs` parameters) when the caller omits them. -/
def Message.construct {α : Type} (queue_name actor_name : String) (args : PyIterable α)
    (kwargs options : Dict α) (message_id : Option String) (message_timestamp : Option Int)
    (freshId : String) (freshTs : Int) : Message α :=
  { queue_name := queue_name
    actor_name := actor_name
    args := tupleConverter args
    kwargs := kwargs
    options := options
    message_id := message_id.getD freshId
    message_timestamp := message_timestamp.getD freshTs }

/-- The explicit keyword overrides a caller may hand to `Message.copy`
(`**attributes`): each of the seven fields may be given or omitted. -/
structure Overrides (α : Type) : Type where
  queue_name : Option String := none
  actor_name : Option String := none
  args : Option (PyIterable α) := none
  kwargs : Option (Dict α) := none
  options : Option (Dict α) := none
  message_id : Option String := none
  message_timestamp : Option Int := none

/-- `Message.copy`: pop the `options` override (default `{}`), merge it into a
copy of the base options, and evolve every other field to its override when
given, keeping the base value otherwise.  `attr.evolve` re-runs the `tuple`
converter on an `args` override. -/
def Message.copy {α : Type} (m : Message α) (ov : Overrides α) : Message α :=
  let updated_options : Dict α := ov.options.getD []
  let options : Dict α := dictUpdate m.options updated_options
  { queue_name := ov.queue_name.getD m.queue_name
    actor_name := ov.actor_name.getD m.actor_name
    args := match ov.args with
      | some it => tupleConverter it
      | none => m.args
    kwargs := ov.kwargs.getD m.kwargs
    options := options
    message_id := ov.message_id.getD m.message_id
    message_timestamp := ov.message_timestamp.getD m.message_timestamp }

/-- `Message.build`: `return self.copy(options=options)`. -/
def Message.build {α : Type} (m : Message α) (options : Dict α) : Message α :=
  m.copy { options := some options }

/-- `attr.asdict(self, recurse=False)`: the field mapping of the message, with
the seven fields under their attribute names. -/
def Message.asdict {α : Type} (m : Message α) : List (String × PyVal α) :=
  [("queue_name", PyVal.vstr m.queue_name),
   ("actor_name", PyVal.vstr m.actor_name),
   ("args", PyVal.vtuple m.args),
   ("kwargs", PyVal.vdict m.kwargs),
   ("options", PyVal.vdict m.options),
   ("message_id", PyVal.vstr m.message_id),
   ("message_timestamp", PyVal.vint m.message_timestamp)]

/-- Errors that `Message.decode` can surface: an opaque error propagated from
the external encoder, or a `TypeError` raised by keyword binding and field
initialisation of `cls(**data)`. -/
inductive DecodeError : Type where
  | encoderError : String → DecodeError
  | unexpectedKeyword : String → DecodeError
  | missingRequired : String → DecodeError
  | typeError : String → DecodeError
deriving DecidableEq

/-- The seven attribute names of `Message`. -/
def fieldNames : List String :=
  ["queue_name", "actor_name", "args", "kwargs", "options",
   "message_id", "message_timestamp"]

/-- The five fields with no attrs default: omitting any of them from
`cls(**data)` is a `TypeError`. -/
def requiredFields : List String :=
  ["queue_name", "actor_name", "args", "kwargs", "options"]

/-- The first key of a decoded mapping that is not a `Message` attribute name;
`cls(**data)` rejects such a key with `TypeError: unexpected keyword argument`. -/
def firstUnexpected {α : Type} (data : List (String × PyVal α)) : Option String :=
  (data.find? (fun kv => !(fieldNames.contains kv.1))).map (fun kv => kv.1)

/-- A value used as a string-typed field. -/
def PyVal.asStr {α : Type} : PyVal α → String → Except DecodeError String
  | .vstr s, _ => Except.ok s
  | _, k => Except.error (DecodeError.typeError k)

/-- A value used as an integer-typed field. -/
def PyVal.asInt {α : Type} : PyVal α → String → Except DecodeError Int
  | .vint n, _ => Except.ok n
  | _, k => Except.error (DecodeError.typeError k)

/-- A value fed to the `tuple` converter: any finite ordered iterable works,
anything else is a `TypeError`. -/
def PyVal.asIter {α : Type} : PyVal α → String → Except DecodeError (List α)
  | .vtuple xs, _ => Except.ok xs
  | .vlist xs, _ => Except.ok xs
  | _, k => Except.error (DecodeError.typeError k)

/-- A value used as a dict-typed field. -/
def PyVal.asDict {α : Type} : PyVal α → String → Except DecodeError (Dict α)
  | .vdict d, _ => Except.ok d
  | _, k => Except.error (DecodeError.typeError k)

/-- `cls(**data)` for a decoded field mapping `data`: keyword binding first
rejects unknown keyword arguments and requires the five fields without attrs
defaults, then field initialisation runs the `tuple` converter on `args` and
falls back to the identity-generator / wall-clock factories (`freshId`,
`freshTs`) for an omitted `message_id` / `message_timestamp`.  When several
fields are ill-shaped at once, which `typeError` surfaces is immaterial to
every claim, so the rows below pick an arbitrary order. -/
def mkFromKwargs {α : Type} (freshId : String) (freshTs : Int)
    (data : List (String × PyVal α)) : Except DecodeError (Message α) :=
  match firstUnexpected data with
  | some k => Except.error (DecodeError.unexpectedKeyword k)
  | none =>
    match dlookup data "queue_name", dlookup data "actor_name", dlookup data "args",
          dlookup data "kwargs", dlookup data "options" with
    | none, _, _, _, _ => Except.error (DecodeError.missingRequired "queue_name")
    | some _, none, _, _, _ => Except.error (DecodeError.missingRequired "actor_name")
    | some _, some _, none, _, _ => Except.error (DecodeError.missingRequired "args")
    | some _, some _, some _, none, _ => Except.error (DecodeError.missingRequired "kwargs")
    | some _, some _, some _, some _, none =>
        Except.error (DecodeError.missingRequired "options")
    | some qv, some av, some arv, some kwv, some opv =>
      match qv.asStr "queue_name", av.asStr "actor_name", arv.asIter "args",
            kwv.asDict "kwargs", opv.asDict "options",
            (match dlookup data "message_id" with
             | none => Except.ok freshId
             | some v => v.asStr "message_id"),
            (match dlookup data "message_timestamp" with
             | none => Except.ok freshTs
             | some v => v.asInt "message_timestamp") with
      | Except.ok q, Except.ok a, Except.ok ar, Except.ok kw, Except.ok op,
        Except.ok mid, Except.ok mts =>
          Except.ok { queue_name := q, actor_name := a, args := ar, kwargs := kw,
                      options := op, message_id := mid, message_timestamp := mts }
      | Except.error e, _, _, _, _, _, _ => Except.error e
      | _, Except.error e, _, _, _, _, _ => Except.error e
      | _, _, Except.error e, _, _, _, _ => Except.error e
      | _, _, _, Except.error e, _, _, _ => Except.error e
      | _, _, _, _, Except.error e, _, _ => Except.error e
      | _, _, _, _, _, Except.error e, _ => Except.error e
      | _, _, _, _, _, _, Except.error e => Except.error e

/-- Modelled from the spec: the wire `Encoder` (`remoulade.encoder`, not under
`src/`) converts a field mapping to a byte payload of type `β` and back; its
serialization algorithm is out of scope and decoding may fail with an opaque
error. -/
structure Encoder (α β : Type) : Type where
  enc : List (String × PyVal α) → β
  dec : β → Except String (List (String × PyVal α))

/-- `get_encoder`: read the process-wide encoder state. -/
def get_encoder {α β : Type} (s : Encoder α β) : Encoder α β := s

/-- `set_encoder e`: replace the process-wide encoder state with `e`. -/
def set_encoder {α β : Type} (e : Encoder α β) (_s : Encoder α β) : Encoder α β := e

/-- `Message.encode`: pass `asdict(self)` to the current global encoder.  The
message stores no encoder of its own; the encoder is read from the global
state `s` at call time. -/
def Message.encode {α β : Type} (s : Encoder α β) (m : Message α) : β :=
  (get_encoder s).enc m.asdict

/-- `Message.decode`: decode the payload with the current global encoder and
construct `cls(**decoded)`.  Encoder failures propagate unchanged. -/
def Message.decode {α β : Type} (s : Encoder α β) (freshId : String) (freshTs : Int)
    (data : β) : Except DecodeError (Message α) :=
  match (get_encoder s).dec data with
  | Except.error e => Except.error (DecodeError.encoderError e)
  | Except.ok fields => mkFromKwargs freshId freshTs fields

/-- Modelled from the spec: `InvalidProgress` (`remoulade.errors`, not under
`src/`) is the error raised for an out-of-range progress value; per the spec it
carries the offending value for diagnostics (the source interpolates it into
the error message string). -/
structure InvalidProgress : Type where
  offending : ℚ
deriving DecidableEq

/-- The delegated broker/backend interactions `set_progress` performs, in
order, on the success path. -/
inductive BackendEffect : Type where
  | getBroker : BackendEffect
  | getStateBackend : BackendEffect
  | setState : String → ℚ → BackendEffect
deriving DecidableEq

/-- `Message.set_progress`: raise `InvalidProgress` when `not (0 <= p <= 1)`,
otherwise resolve the broker, obtain its state backend and record the state
`State(message_id, progress)`.  The result is the trace of delegated effects;
the error branch performs none, so a rejection happens before any broker or
backend interaction. -/
def Message.set_progress {α : Type} (m : Message α) (progress : ℚ) :
    Except InvalidProgress (List BackendEffect) :=
  if ¬ (0 ≤ progress ∧ progress ≤ 1) then
    Except.error { offending := progress }
  else
    Except.ok [BackendEffect.getBroker, BackendEffect.getStateBackend,
               BackendEffect.setState m.message_id progress]

/-- Modelled from the spec: the `pipeline` combinator (`remoulade.composition`,
not under `src/`) is an externally-defined ordered Pipeline storing exactly the
children it is constructed with, in order. -/
structure pipeline (χ : Type) : Type where
  children : List χ

/-- `Message.__or__`: `return pipeline((self, other))`, where `other` is any
message-like value (its type `β` is left abstract). -/
def Message.orCombine {α β : Type} (self : Message α) (other : β) :
    pipeline (Message α ⊕ β) :=
  { children := [Sum.inl self, Sum.inr other] }

/-- A Python object reference (heap address). -/
abbrev Ref : Type := Nat

/-- A heap of dict objects, addressed by `Ref`. -/
structure Heap (α : Type) : Type where
  dicts : List (Dict α)
deriving DecidableEq

/-- Dereference a dict object. -/
def Heap.read {α : Type} (h : Heap α) (r : Ref) : Dict α :=
  h.dicts.getD r []

/-- Mutate the dict object behind a reference in place. -/
def Heap.write {α : Type} (h : Heap α) (r : Ref) (d : Dict α) : Heap α :=
  { dicts := h.dicts.set r d }

/-- The reference-level view of a constructed `Message`, as the attrs class
actually stores it: the `kwargs` and `options` attributes hold dict object
references (the fields have no converter), while `args` holds the values
materialised by the `tuple` converter. -/
structure MessageH (α : Type) : Type where
  queue_name : String
  actor_name : String
  args : List α
  kwargs : Ref
  options : Ref
  message_id : String
  message_timestamp : Int
deriving DecidableEq

/-- Construction at the reference level: the caller's `kwargs` and `options`
references are stored as-is (no copy is taken); `args` goes through the
`tuple` converter, which copies its elements into a fresh sequence. -/
def MessageH.construct {α : Type} (queue_name actor_name : String) (args : PyIterable α)
    (kwargs options : Ref) (message_id : String) (message_timestamp : Int) : MessageH α :=
  { queue_name := queue_name
    actor_name := actor_name
    args := tupleConverter args
    kwargs := kwargs
    options := options
    message_id := message_id
    message_timestamp := message_timestamp }

/-- The dict value currently reachable through the message's `options` field. -/
def MessageH.optionsValue {α : Type} (m : MessageH α) (h : Heap α) : Dict α :=
  h.read m.options

/-- The dict value currently reachable through the message's `kwargs` field. -/
def MessageH.kwargsValue {α : Type} (m : MessageH α) (h : Heap α) : Dict α :=
  h.read m.kwargs

/-- A concrete example message used by witnesses. -/
def msgEx : Message Int :=
  { queue_name := "default"
    actor_name := "add"
    args := [1, 2]
    kwargs := []
    options := [("a", 1), ("b", 2)]
    message_id := "id-1"
    message_timestamp := 1700000000000 }

/-- A concrete heap holding one dict object (the caller's `options` dict). -/
def heapC4 : Heap Int := { dicts := [[("a", 1)]] }

/-- A message constructed with the caller's dict reference `0` for both
`kwargs` and `options`. -/
def msgC4 : MessageH Int :=
  MessageH.construct "default" "add" (PyIterable.pylist []) 0 0 "id-1" 0

/-- The heap after the caller mutates its own dict (reference `0`) once the
message has been constructed. -/
def heapC4after : Heap Int := heapC4.write 0 [("a", 2)]

/-- A trivial concrete encoder whose payload type is the field mapping itself;
it round-trips by construction and instantiates encoder-parametric theorems. -/
def idEncoder : Encoder Int (List (String × PyVal Int)) :=
  { enc := fun fm => fm
    dec := fun b => Except.ok b }

/-- A decoded mapping holding a key that is not a `Message` attribute name. -/
def dataBadKey : List (String × PyVal Int) :=
  [("queue_name", PyVal.vstr "default"), ("bogus", PyVal.vint 0)]

/-- A decoded mapping missing the required `options` field. -/
def dataMissing : List (String × PyVal Int) :=
  [("queue_name", PyVal.vstr "default"), ("actor_name", PyVal.vstr "add"),
   ("args", PyVal.vlist [1, 2]), ("kwargs", PyVal.vdict [])]

/-- A decoded mapping with exactly the five required fields: `message_id` and
`message_timestamp` are left to their factories. -/
def dataFive : List (String × PyVal Int) :=
  [("queue_name", PyVal.vstr "default"), ("actor_name", PyVal.vstr "add"),
   ("args", PyVal.vlist [1, 2]), ("kwargs", PyVal.vdict []),
   ("options", PyVal.vdict [("a", 1)])]

/-- A decoded mapping missing only `message_id`: the five required fields plus
an explicit `message_timestamp`. -/
def dataNoId : List (String × PyVal Int) :=
  [("queue_name", PyVal.vstr "default"), ("actor_name", PyVal.vstr "add"),
   ("args", PyVal.vlist [1, 2]), ("kwargs", PyVal.vdict []),
   ("options", PyVal.vdict [("a", 1)]), ("message_timestamp", PyVal.vint 55)]

/-! ## Dictionary lemmas -/

/-- Lookup after a single Python dict assignment. -/
theorem dlookup_dictSet {α : Type} (d : Dict α) (k q : String) (v : α) :
    dlookup (dictSet d k v) q = if k = q then some v else dlookup d q := by
  induction d with
  | nil => simp [dictSet, dlookup]
  | cons kv rest ih =>
    by_cases hk : kv.1 = k
    · by_cases hq : k = q
      · simp [dictSet, dlookup, hk, hq]
      · have hkq : ¬ kv.1 = q := by rw [hk]; exact hq
        simp [dictSet, dlookup, hk, hq, hkq]
    · by_cases hq : kv.1 = q
      · have hkq : ¬ k = q := fun h => hk (hq.trans h.symm)
        have hqk : ¬ q = k := fun h => hkq h.symm
        simp [dictSet, dlookup, hk, hq, hkq, hqk]
      · simp [dictSet, dlookup, hk, hq, ih]

/-- A key absent from a dict looks up to nothing. -/
theorem dlookup_eq_none_of_not_mem {α : Type} (d : Dict α) (k : String)
    (h : k ∉ d.map Prod.fst) : dlookup d k = none := by
  induction d with
  | nil => rfl
  | cons kv rest ih =>
    simp only [List.map_cons, List.mem_cons] at h
    push_neg at h
    have hk : ¬ kv.1 = k := fun hh => h.1 hh.symm
    simp [dlookup, hk, ih h.2]

/-- Lookup after `base.update(upd)`, for an update mapping with unique keys
(every Python dict): the update wins where it binds the key, the base is
preserved elsewhere. -/
theorem dlookup_dictUpdate {α : Type} (base o : Dict α)
    (hnd : (o.map Prod.fst).Nodup) (k : String) :
    dlookup (dictUpdate base o) k =
      match dlookup o k with
      | some v => some v
      | none => dlookup base k := by
  induction o generalizing base with
  | nil => simp [dictUpdate, dlookup]
  | cons kv rest ih =>
    simp only [List.map_cons, List.nodup_cons] at hnd
    have step : dictUpdate base (kv :: rest) = dictUpdate (dictSet base kv.1 kv.2) rest := rfl
    rw [step, ih _ hnd.2]
    by_cases hq : kv.1 = k
    · have hrest : dlookup rest k = none :=
        dlookup_eq_none_of_not_mem rest k (hq ▸ hnd.1)
      simp [dlookup, hq, hrest, dlookup_dictSet]
    · cases hrk : dlookup rest k with
      | none => simp [dlookup, hq, hrk, dlookup_dictSet]
      | some v => simp [dlookup, hq, hrk]

/-! ## Claim theorems -/

/-- C2: for every Message `m` and options override `o` (a Python dict, so its
keys are unique), `m.copy(options=o).options` is the merge of `m.options` with
`o` in which keys of `o` take precedence and keys of `m.options` absent from
`o` are preserved; with no `options` override the copy's options are
value-equal to `m.options`. -/
theorem C2_copy_merges_options {α : Type} (m : Message α) (o : Dict α)
    (hnd : (o.map Prod.fst).Nodup) :
    (∀ k, dlookup ((m.copy { options := some o }).options) k =
      match dlookup o k with
      | some v => some v
      | none => dlookup m.options k)
  ∧ (m.copy {}).options = m.options := by
  constructor
  · intro k
    have hopt : (m.copy { options := some o }).options = dictUpdate m.options o := rfl
    rw [hopt, dlookup_dictUpdate m.options o hnd k]
  · rfl

/-- Witness for C2 at the spec's own example: base options `a=1, b=2`, update
`b=3, c=4` gives `a=1, b=3, c=4`. -/
theorem C2_copy_merges_options_witness :
    dlookup ((msgEx.copy { options := some [("b", 3), ("c", 4)] }).options) "a" = some 1 ∧
    dlookup ((msgEx.copy { options := some [("b", 3), ("c", 4)] }).options) "b" = some 3 ∧
    dlookup ((msgEx.copy { options := some [("b", 3), ("c", 4)] }).options) "c" = some 4 :=
  ⟨((C2_copy_merges_options msgEx [("b", 3), ("c", 4)] (by decide)).1 "a").trans rfl,
   ((C2_copy_merges_options msgEx [("b", 3), ("c", 4)] (by decide)).1 "b").trans rfl,
   ((C2_copy_merges_options msgEx [("b", 3), ("c", 4)] (by decide)).1 "c").trans rfl⟩

/-- C5: a copy whose override set touches neither `message_id` nor
`message_timestamp` preserves both, and every non-overridden field is carried
forward equal to the original's. -/
theorem C5_copy_preserves_identity {α : Type} (m : Message α) (ov : Overrides α)
    (hid : ov.message_id = none) (hts : ov.message_timestamp = none) :
    (m.copy ov).message_id = m.message_id
  ∧ (m.copy ov).message_timestamp = m.message_timestamp
  ∧ (ov.queue_name = none → (m.copy ov).queue_name = m.queue_name)
  ∧ (ov.actor_name = none → (m.copy ov).actor_name = m.actor_name)
  ∧ (ov.args = none → (m.copy ov).args = m.args)
  ∧ (ov.kwargs = none → (m.copy ov).kwargs = m.kwargs)
  ∧ (ov.options = none → (m.copy ov).options = m.options) := by
  refine ⟨?_, ?_, fun h => ?_, fun h => ?_, fun h => ?_, fun h => ?_, fun h => ?_⟩
  · simp [Message.copy, hid]
  · simp [Message.copy, hts]
  · simp [Message.copy, h]
  · simp [Message.copy, h]
  · simp [Message.copy, h]
  · simp [Message.copy, h]
  · show dictUpdate m.options (ov.options.getD []) = m.options
    rw [h]
    rfl

/-- Witness for C5 at the empty override set. -/
theorem C5_copy_preserves_identity_witness :
    (msgEx.copy {}).message_id = msgEx.message_id ∧
    (msgEx.copy {}).message_timestamp = msgEx.message_timestamp ∧
    (msgEx.copy {}).options = msgEx.options :=
  ⟨(C5_copy_preserves_identity msgEx {} rfl rfl).1,
   (C5_copy_preserves_identity msgEx {} rfl rfl).2.1,
   (C5_copy_preserves_identity msgEx {} rfl rfl).2.2.2.2.2.2 rfl⟩

/-- C6: construction normalizes `args`, supplied as any finite ordered
iterable, to the fixed ordered sequence of its elements, regardless of the
input container type. -/
theorem C6_args_normalized {α : Type} (q a : String) (it : PyIterable α)
    (kw op : Dict α) (mid : Option String) (mts : Option Int)
    (fid : String) (fts : Int) :
    (Message.construct q a it kw op mid mts fid fts).args = it.elements := by
  cases it <;> rfl

/-- C7: after `set_encoder e`, `get_encoder` returns `e` and every subsequent
`encode`/`decode` call uses `e` exclusively (until the state is replaced
again); no encoder is stored per message — `encode` and `decode` consult only
the global state. -/
theorem C7_encoder_swap {α β : Type} (e s : Encoder α β) :
    get_encoder (set_encoder e s) = e
  ∧ (∀ m : Message α, Message.encode (set_encoder e s) m = e.enc m.asdict)
  ∧ (∀ (fid : String) (fts : Int) (b : β),
      Message.decode (set_encoder e s) fid fts b = Message.decode e fid fts b) :=
  ⟨rfl, fun _ => rfl, fun _ _ _ => rfl⟩

/-- C8: combining a message `a` with a message-like value `b` yields a
Pipeline holding exactly the ordered pair `(a, b)` — `a` and `b` themselves,
unmodified, with nothing else materialized. -/
theorem C8_or_builds_pipeline {α β : Type} (a : Message α) (b : β) :
    (a.orCombine b).children = [Sum.inl a, Sum.inr b] := rfl

/-- C9: `build o` is exactly `copy` with an options-only override, and hence
merges `o` into the message's options. -/
theorem C9_build_is_copy {α : Type} (m : Message α) (o : Dict α) :
    m.build o = m.copy { options := some o }
  ∧ (m.build o).options = dictUpdate m.options o :=
  ⟨rfl, rfl⟩

/-- C3: `set_progress p` raises `InvalidProgress` carrying `p` if and only if
`p` lies outside `[0, 1]`; a rejection produces no broker or backend effect
(the error branch returns before any delegated call), and the boundary values
`0` and `1` succeed and reach the state backend with `setState`. -/
theorem C3_set_progress_validates {α : Type} (m : Message α) (p : ℚ) :
    ((∃ e, m.set_progress p = Except.error e) ↔ ¬ (0 ≤ p ∧ p ≤ 1))
  ∧ (∀ e, m.set_progress p = Except.error e → e.offending = p)
  ∧ (¬ (0 ≤ p ∧ p ≤ 1) → m.set_progress p = Except.error { offending := p })
  ∧ ((0 ≤ p ∧ p ≤ 1) → m.set_progress p =
      Except.ok [BackendEffect.getBroker, BackendEffect.getStateBackend,
                 BackendEffect.setState m.message_id p])
  ∧ m.set_progress 0 =
      Except.ok [BackendEffect.getBroker, BackendEffect.getStateBackend,
                 BackendEffect.setState m.message_id 0]
  ∧ m.set_progress 1 =
      Except.ok [BackendEffect.getBroker, BackendEffect.getStateBackend,
                 BackendEffect.setState m.message_id 1] := by
  have h0 : m.set_progress 0 =
      Except.ok [BackendEffect.getBroker, BackendEffect.getStateBackend,
                 BackendEffect.setState m.message_id 0] := by
    rw [Message.set_progress, if_neg (not_not_intro (by norm_num))]
  have h1 : m.set_progress 1 =
      Except.ok [BackendEffect.getBroker, BackendEffect.getStateBackend,
                 BackendEffect.setState m.message_id 1] := by
    rw [Message.set_progress, if_neg (not_not_intro (by norm_num))]
  by_cases h : 0 ≤ p ∧ p ≤ 1
  · have hok : m.set_progress p =
        Except.ok [BackendEffect.getBroker, BackendEffect.getStateBackend,
                   BackendEffect.setState m.message_id p] := by
      rw [Message.set_progress, if_neg (not_not_intro h)]
    refine ⟨?_, ?_, fun hc => absurd h hc, fun _ => hok, h0, h1⟩
    · constructor
      · rintro ⟨e, he⟩
        rw [hok] at he
        cases he
      · intro hc
        exact absurd h hc
    · intro e he
      rw [hok] at he
      cases he
  · have herr : m.set_progress p = Except.error { offending := p } := by
      rw [Message.set_progress, if_pos h]
    refine ⟨?_, ?_, fun _ => herr, fun hc => absurd hc h, h0, h1⟩
    · exact ⟨fun _ => h, fun _ => ⟨{ offending := p }, herr⟩⟩
    · intro e he
      rw [herr] at he
      cases he
      rfl

/-- Witness for C3: `-1/10` and `11/10` are rejected with the offending value,
`1` succeeds. -/
theorem C3_set_progress_validates_witness :
    msgEx.set_progress (-1/10) = Except.error { offending := -1/10 } ∧
    msgEx.set_progress (11/10) = Except.error { offending := 11/10 } ∧
    msgEx.set_progress 1 =
      Except.ok [BackendEffect.getBroker, BackendEffect.getStateBackend,
                 BackendEffect.setState msgEx.message_id 1] :=
  ⟨(C3_set_progress_validates msgEx (-1/10)).2.2.1 (by norm_num),
   (C3_set_progress_validates msgEx (11/10)).2.2.1 (by norm_num),
   (C3_set_progress_validates msgEx 1).2.2.2.2.2⟩

/-- C4 counterexample: the claim that `kwargs` and `options` are stored by
value fails on the code — the attrs fields have no converter, so the
constructor stores the caller's dict reference.  Concretely: the caller's
options dict is object `0` holding `a=1`; after construction the caller
mutates its own dict to `a=2`, and the value reachable through the message's
`options` field has changed. -/
theorem C4_counterexample_aliasing :
    msgC4.optionsValue heapC4after ≠ msgC4.optionsValue heapC4 := by decide

/-- C4 amended: `kwargs` and `options` are stored by reference, not by value —
the constructor keeps the caller's own dict references, so a mutation of the
caller's mapping after construction is visible through the Message (and vice
versa); only `args` is materialised by the `tuple` converter into a fresh
sequence of values, independent of any heap object. -/
theorem C4_amended_stored_by_reference {α : Type} (q a : String) (args : PyIterable α)
    (kwr opr : Ref) (mid : String) (mts : Int) :
    (MessageH.construct q a args kwr opr mid mts).kwargs = kwr
  ∧ (MessageH.construct q a args kwr opr mid mts).options = opr
  ∧ (∀ (h : Heap α) (d : Dict α), opr < h.dicts.length →
      (MessageH.construct q a args kwr opr mid mts).optionsValue (h.write opr d) = d)
  ∧ (∀ (h : Heap α) (d : Dict α), kwr < h.dicts.length →
      (MessageH.construct q a args kwr opr mid mts).kwargsValue (h.write kwr d) = d)
  ∧ (MessageH.construct q a args kwr opr mid mts).args = args.elements := by
  refine ⟨rfl, rfl, fun h d hlt => ?_, fun h d hlt => ?_, ?_⟩
  · show (h.write opr d).read opr = d
    simp [Heap.read, Heap.write, List.getD, List.getElem?_set_eq_of_lt d hlt]
  · show (h.write kwr d).read kwr = d
    simp [Heap.read, Heap.write, List.getD, List.getElem?_set_eq_of_lt d hlt]
  · cases args <;> rfl

/-- Witness for C4's amended statement: mutating the dict object behind the
message's options reference makes the new value visible through the message. -/
theorem C4_amended_stored_by_reference_witness :
    msgC4.optionsValue (heapC4.write 0 [("a", 2)]) = [("a", 2)] :=
  (C4_amended_stored_by_reference "default" "add" (PyIterable.pylist []) 0 0 "id-1" 0).2.2.1
    heapC4 [("a", 2)] (by decide)

/-- Keyword construction of the field mapping of an existing message rebuilds
that very message: every key is an attribute name, all seven fields are
present and well-shaped, and the `tuple` converter is the identity on the
already-converted `args`. -/
theorem mkFromKwargs_asdict {α : Type} (fid : String) (fts : Int) (m : Message α) :
    mkFromKwargs fid fts m.asdict = Except.ok m := rfl

/-- If keyword construction succeeds, each of the five required fields was
present in the mapping. -/
theorem mkFromKwargs_ok_required {α : Type} {fid : String} {fts : Int}
    {data : List (String × PyVal α)} {m : Message α}
    (h : mkFromKwargs fid fts data = Except.ok m) :
    (dlookup data "queue_name").isSome ∧ (dlookup data "actor_name").isSome ∧
    (dlookup data "args").isSome ∧ (dlookup data "kwargs").isSome ∧
    (dlookup data "options").isSome := by
  unfold mkFromKwargs at h
  split at h
  · exact Except.noConfusion h
  · split at h
    · exact Except.noConfusion h
    · exact Except.noConfusion h
    · exact Except.noConfusion h
    · exact Except.noConfusion h
    · exact Except.noConfusion h
    · refine ⟨?_, ?_, ?_, ?_, ?_⟩ <;> simp_all

/-- C1: for every valid Message `m`, provided the configured encoder satisfies
its round-trip contract on field mappings, `decode(encode(m))` reconstructs a
Message whose seven fields are attribute-equal to `m`'s (structure equality in
this embedding). -/
theorem C1_decode_encode_roundtrip {α β : Type} (e : Encoder α β) (m : Message α)
    (fid : String) (fts : Int)
    (hrt : ∀ fm : List (String × PyVal α), e.dec (e.enc fm) = Except.ok fm) :
    Message.decode e fid fts (Message.encode e m) = Except.ok m := by
  unfold Message.decode Message.encode get_encoder
  rw [hrt m.asdict]
  exact mkFromKwargs_asdict fid fts m

/-- Witness for C1 at a concrete message and a concrete round-tripping
encoder. -/
theorem C1_decode_encode_roundtrip_witness :
    Message.decode idEncoder "fresh-id" 0 (Message.encode idEncoder msgEx) =
      Except.ok msgEx :=
  C1_decode_encode_roundtrip idEncoder msgEx "fresh-id" 0 (fun _ => rfl)

/-- C10: keyword construction from a decoded field mapping fails with an error
when the mapping holds a key outside the seven attribute names, or is missing
one of the five required fields; a well-shaped mapping in which `message_id`
and `message_timestamp` are each either present or absent — in particular one
missing only one of them, or both — succeeds, with each absent field freshly
generated and each present field taken from the mapping. -/
theorem C10_decode_validates_fields {α : Type} (fid : String) (fts : Int)
    (data : List (String × PyVal α)) :
    (∀ k, k ∈ data.map Prod.fst → fieldNames.contains k = false →
      ∃ e, mkFromKwargs fid fts data = Except.error e)
  ∧ (∀ k, k ∈ requiredFields → dlookup data k = none →
      ∃ e, mkFromKwargs fid fts data = Except.error e)
  ∧ (∀ (q a : String) (ar : List α) (kw op : Dict α)
       (mid : Option String) (mts : Option Int),
      (∀ kk ∈ data.map Prod.fst, fieldNames.contains kk = true) →
      dlookup data "queue_name" = some (PyVal.vstr q) →
      dlookup data "actor_name" = some (PyVal.vstr a) →
      dlookup data "args" = some (PyVal.vlist ar) →
      dlookup data "kwargs" = some (PyVal.vdict kw) →
      dlookup data "options" = some (PyVal.vdict op) →
      dlookup data "message_id" = Option.map PyVal.vstr mid →
      dlookup data "message_timestamp" = Option.map PyVal.vint mts →
      mkFromKwargs fid fts data = Except.ok
        { queue_name := q, actor_name := a, args := ar, kwargs := kw,
          options := op, message_id := mid.getD fid,
          message_timestamp := mts.getD fts }) := by
  refine ⟨?_, ?_, ?_⟩
  · intro k hk hbad
    rcases hfind : data.find? (fun kv => !(fieldNames.contains kv.1)) with _ | kv
    · exfalso
      obtain ⟨kv, hkv, hfst⟩ := List.mem_map.mp hk
      have hnp := List.find?_eq_none.mp hfind kv hkv
      simp [hfst] at hnp
      simp at hbad
      exact hbad hnp
    · refine ⟨DecodeError.unexpectedKeyword kv.1, ?_⟩
      unfold mkFromKwargs firstUnexpected
      rw [hfind]
      rfl
  · intro k hk hmiss
    cases hres : mkFromKwargs fid fts data with
    | error e => exact ⟨e, rfl⟩
    | ok mres =>
      exfalso
      have hreq := mkFromKwargs_ok_required hres
      simp only [requiredFields, List.mem_cons, List.not_mem_nil, or_false] at hk
      rcases hk with rfl | rfl | rfl | rfl | rfl <;> simp [hmiss] at hreq
  · intro q a ar kw op mid mts hkeys hq ha har hkw hop hmid hmts
    have hfind : data.find? (fun kv => !(fieldNames.contains kv.1)) = none := by
      rw [List.find?_eq_none]
      intro kv hkv
      simpa using hkeys kv.1 (List.mem_map_of_mem Prod.fst hkv)
    have hfu : firstUnexpected data = none := by
      unfold firstUnexpected
      rw [hfind]
      rfl
    unfold mkFromKwargs
    rw [hfu, hq, ha, har, hkw, hop, hmid, hmts]
    cases mid <;> cases mts <;> rfl

/-- Witness for C10: a stray key and a missing `options` field both fail; the
five-field mapping succeeds with both identity fields freshly generated, and
the mapping missing only `message_id` succeeds with just the id freshly
generated while the supplied timestamp is kept. -/
theorem C10_decode_validates_fields_witness :
    (∃ e, mkFromKwargs "fresh-id" 0 dataBadKey = Except.error e)
  ∧ (∃ e, mkFromKwargs "fresh-id" 0 dataMissing = Except.error e)
  ∧ mkFromKwargs "fresh-id" 77 dataFive = Except.ok
      { queue_name := "default", actor_name := "add", args := [1, 2], kwargs := [],
        options := [("a", 1)], message_id := "fresh-id", message_timestamp := 77 }
  ∧ mkFromKwargs "fresh-id" 77 dataNoId = Except.ok
      { queue_name := "default", actor_name := "add", args := [1, 2], kwargs := [],
        options := [("a", 1)], message_id := "fresh-id", message_timestamp := 55 } :=
  ⟨(C10_decode_validates_fields "fresh-id" 0 dataBadKey).1 "bogus" (by decide) (by decide),
   (C10_decode_validates_fields "fresh-id" 0 dataMissing).2.1 "options" (by decide) (by decide),
   (C10_decode_validates_fields "fresh-id" 77 dataFive).2.2 "default" "add" [1, 2] []
     [("a", 1)] none none (by decide) rfl rfl rfl rfl rfl rfl rfl,
   (C10_decode_validates_fields "fresh-id" 77 dataNoId).2.2 "default" "add" [1, 2] []
     [("a", 1)] none (some 55) (by decide) rfl rfl rfl rfl rfl rfl rfl⟩
